import Mathlib

/-!
Verification of the COBALT host-execution core.

This file gives a shallow embedding of the host-execution core of the
repository: the execution contract (`ExecutionCommand`, `ExecutionResult`
from `L05_MODEL_LAYER/L05A_ConfigSynthesis`), the synchronous runner
(`execute_sync` in `L02A_HostExecutionCore/sync_execution.py`), the
asynchronous runner (`execute_async` in
`L02A_HostExecutionCore/async_execution.py`), and the bounded-concurrency
workflow orchestration (`WorkflowManager` in
`L06_ORCHESTRATOR_LAYER/workflow_manager.py`).

The interaction with the operating system (spawning a child process,
waiting for it, the exceptions the subprocess primitives raise) is
modelled by an explicit event value fed to each runner; the runner bodies
themselves are translated statement by statement from the Python source.
Both runners return `Except String ExecutionResult`: the `.error`
constructor models an exception escaping to the caller (which, in the
source, can only come from the final pydantic validation of the result,
whose `ge=0` bound on `duration_s` is the one constraint that depends on
a runtime value).
-/

/-- The terminal status literals of `ExecutionResult.status`
(`Literal["SUCCESS", "FAILURE", "TIMEOUT", "ERROR"]` in
`execution_result.py`). -/
inductive Status where
  | SUCCESS
  | FAILURE
  | TIMEOUT
  | ERROR
  deriving DecidableEq, Repr

/-- The input contract `ExecutionCommand` of `execution_command.py`.
`timeout` is the `float` field (modelled as a rational); `env_vars` is the
override dictionary, modelled as an association list. -/
structure ExecutionCommand where
  command : String
  args : List String
  cwd : Option String
  timeout : Rat
  env_vars : List (String × String)
  context_id : String
  deriving DecidableEq, Repr

/-- The output contract `ExecutionResult` of `execution_result.py`. -/
structure ExecutionResult where
  status : Status
  exit_code : Int
  duration_s : Rat
  stdout : String
  stderr : String
  error_message : Option String
  deriving DecidableEq, Repr

/-- Pydantic validation of an `ExecutionCommand` (`model_validate` /
construction).  The only `Field` constraint beyond typing is `gt=0` on
`timeout`; in particular `command` has no non-emptiness constraint.
`0 < timeout` is decided on the numerator, which for a rational in
normal form is equivalent to `0 < timeout`. -/
def ExecutionCommand.model_validate (command : String) (args : List String)
    (cwd : Option String) (timeout : Rat) (env_vars : List (String × String))
    (context_id : String) : Except String ExecutionCommand :=
  if 0 < timeout.num then
    Except.ok ⟨command, args, cwd, timeout, env_vars, context_id⟩
  else
    Except.error "Input should be greater than 0"

/-- Pydantic validation of an `ExecutionResult` (`model_validate` at the
end of each runner).  The one data-dependent `Field` constraint is `ge=0`
on `duration_s`, decided on the numerator. -/
def ExecutionResult.model_validate (status : Status) (exit_code : Int)
    (duration_s : Rat) (stdout stderr : String)
    (error_message : Option String) : Except String ExecutionResult :=
  if 0 ≤ duration_s.num then
    Except.ok ⟨status, exit_code, duration_s, stdout, stderr, error_message⟩
  else
    Except.error "Input should be greater than or equal to 0"

/-- Python's notion of ASCII whitespace as used by `str.strip()`. -/
def pyIsSpace (c : Char) : Bool :=
  c == ' ' || c == '\t' || c == '\n' || c == '\r' || c == '\x0b' || c == '\x0c'

/-- Python's `str.strip()`: remove leading and trailing whitespace. -/
def strip (s : String) : String :=
  String.mk (((s.data.dropWhile pyIsSpace).reverse.dropWhile pyIsSpace).reverse)

/-- A Python exception value as the runners observe it: the class name
(`type(e).__name__`) and the rendering `str(e)`.  Every exception the
subprocess primitives raise derives from `Exception`, so the catch-all
`except Exception` clauses of both runners apply to every `PyExn`. -/
structure PyExn where
  typeName : String
  msg : String
  deriving DecidableEq, Repr

/-- Dispatch of an `except FileNotFoundError` clause. -/
def PyExn.isFileNotFound (e : PyExn) : Bool :=
  e.typeName == "FileNotFoundError"

/-- The mutable `result_kwargs` dictionary both runners thread through
their branches (without the `duration_s` entry, which is written only in
the `finally` block from the measured wall clock). -/
structure ResultKwargs where
  status : Status
  exit_code : Int
  stdout : String
  stderr : String
  error_message : Option String
  deriving DecidableEq, Repr

/-- The initial `result_kwargs` of both runners:
`{"status": "FAILURE", "exit_code": -1, "stdout": "", "stderr": "",
"error_message": None}`. -/
def initialKwargs : ResultKwargs :=
  ⟨Status.FAILURE, -1, "", "", none⟩

/-- What the operating system does for one `subprocess.run` call of the
synchronous runner:
* `completed`: the call returns a `CompletedProcess` with the given
  return code and captured text output;
* `timeoutExpired`: the call raises `subprocess.TimeoutExpired`, whose
  `stdout` / `stderr` attributes carry the output captured before the
  deadline when the runtime attached any (`none` models `None`);
* `raised`: the call raises some other exception (for a missing
  executable, a `FileNotFoundError`). -/
inductive SyncEvent where
  | completed (returncode : Int) (stdoutText stderrText : String)
  | timeoutExpired (stdoutBytes stderrBytes : Option String)
  | raised (e : PyExn)
  deriving DecidableEq, Repr

/-- `execute_sync` of `sync_execution.py`, branch by branch.  `duration`
is the wall-clock time `time.time() - start_time` measured in the
`finally` block. -/
def execute_sync (command_data : ExecutionCommand) (ev : SyncEvent)
    (duration : Rat) : Except String ExecutionResult :=
  let t := command_data.timeout
  let c := command_data.command
  let k :=
    match ev with
    | SyncEvent.completed rc out err =>
        let k1 := { initialKwargs with
          stdout := strip out, stderr := strip err, exit_code := rc }
        if rc = 0 then
          { k1 with status := Status.SUCCESS }
        else
          { k1 with
            status := Status.FAILURE,
            error_message := some s!"Command exited with non-zero code {rc}." }
    | SyncEvent.timeoutExpired so se =>
        { initialKwargs with
          status := Status.TIMEOUT,
          error_message :=
            some s!"Command timed out after {t} seconds. Process was terminated.",
          stdout := match so with | some sOut => sOut | none => "",
          stderr := match se with | some sErr => sErr | none => "" }
    | SyncEvent.raised e =>
        if e.isFileNotFound then
          { initialKwargs with
            status := Status.FAILURE,
            error_message := some s!"Executable not found: {c}. Check PATH or cwd." }
        else
          let tn := e.typeName
          let m := e.msg
          { initialKwargs with
            status := Status.FAILURE,
            error_message :=
              some s!"Unexpected system error during execution: {tn}: {m}" }
  ExecutionResult.model_validate k.status k.exit_code duration k.stdout
    k.stderr k.error_message

/-- What the operating system does for one
`asyncio.create_subprocess_exec` + `communicate` interaction of the
asynchronous runner:
* `spawnFail`: `create_subprocess_exec` raises (for a missing executable,
  a `FileNotFoundError`); this happens inside the outer `try`, before the
  inner `try` around `communicate` is entered;
* `exited`: `communicate` returns the captured output within the timeout
  and `process.returncode` is the given code;
* `timedOut`: `asyncio.wait_for` raises `asyncio.TimeoutError`; the local
  `stdout_bytes` / `stderr_bytes` keep their initial empty value because
  only a completed `communicate` call assigns them;
* `commFail`: `communicate` raises some other exception. -/
inductive AsyncEvent where
  | spawnFail (e : PyExn)
  | exited (returncode : Int) (stdoutBytes stderrBytes : String)
  | timedOut
  | commFail (e : PyExn)
  deriving DecidableEq, Repr

/-- The `finally` block of `execute_async`: decode and strip the captured
buffers when they are non-empty, then run the final status check, which
promotes the status only when it is neither `TIMEOUT` nor `FAILURE` and a
return code is available (`returncode` models `process.returncode`,
`none` when the process was never created or no code was obtained). -/
def asyncFinally (k : ResultKwargs) (stdoutBytes stderrBytes : String)
    (returncode : Option Int) (duration : Rat) :
    Except String ExecutionResult :=
  let k1 := { k with
    stdout := if stdoutBytes ≠ "" then strip stdoutBytes else k.stdout,
    stderr := if stderrBytes ≠ "" then strip stderrBytes else k.stderr }
  let k2 :=
    match returncode with
    | some rc =>
        if k1.status ≠ Status.TIMEOUT ∧ k1.status ≠ Status.FAILURE then
          if rc = 0 then
            { k1 with status := Status.SUCCESS }
          else
            { k1 with
              status := Status.FAILURE,
              error_message :=
                match k1.error_message with
                | none => some s!"Command exited with non-zero code {rc}."
                | some m => some m }
        else k1
    | none => k1
  ExecutionResult.model_validate k2.status k2.exit_code duration k2.stdout
    k2.stderr k2.error_message

/-- `execute_async` of `async_execution.py`, branch by branch.  The outer
`try` has the single handler `except Exception` (message
`"Failed to start process: ..."`); the inner `try` around `communicate`
handles `asyncio.TimeoutError`, `FileNotFoundError` and `Exception`.
Every branch falls through to the `finally` block `asyncFinally`. -/
def execute_async (command_data : ExecutionCommand) (ev : AsyncEvent)
    (duration : Rat) : Except String ExecutionResult :=
  let t := command_data.timeout
  let c := command_data.command
  match ev with
  | AsyncEvent.spawnFail e =>
      let tn := e.typeName
      let m := e.msg
      asyncFinally { initialKwargs with
        status := Status.FAILURE,
        error_message := some s!"Failed to start process: {tn}: {m}" }
        "" "" none duration
  | AsyncEvent.exited rc outB errB =>
      asyncFinally { initialKwargs with exit_code := rc }
        outB errB (some rc) duration
  | AsyncEvent.timedOut =>
      asyncFinally { initialKwargs with
        status := Status.TIMEOUT,
        error_message := some s!"Command timed out after {t} seconds." }
        "" "" none duration
  | AsyncEvent.commFail e =>
      if e.isFileNotFound then
        asyncFinally { initialKwargs with
          status := Status.FAILURE,
          error_message := some s!"Executable not found: {c}. Check PATH or cwd." }
          "" "" none duration
      else
        let tn := e.typeName
        let m := e.msg
        asyncFinally { initialKwargs with
          status := Status.FAILURE,
          error_message :=
            some s!"Unexpected system error during execution: {tn}: {m}" }
          "" "" none duration

/-- A sample request: scenario 1 of the specification. -/
def echoReq : ExecutionCommand :=
  ⟨"echo", ["hello"], none, 5, [], "ctx-echo"⟩

/-- A sample request naming a missing executable: scenario 3 of the
specification. -/
def missingReq : ExecutionCommand :=
  ⟨"/no/such/binary", [], none, 5, [], "ctx-missing"⟩

/-- The `str(e)` of the `FileNotFoundError` the operating system raises
when spawning `/no/such/binary`. -/
def missingMsg : String :=
  "[Errno 2] No such file or directory: /no/such/binary"

/-- The output text the synchronous runner's one `subprocess.run` call
captured before resolving, per event. -/
def SyncEvent.capturedStdout : SyncEvent → String
  | SyncEvent.completed _ out _ => out
  | SyncEvent.timeoutExpired so _ => match so with | some s => s | none => ""
  | SyncEvent.raised _ => ""

/-- The error-stream counterpart of `SyncEvent.capturedStdout`. -/
def SyncEvent.capturedStderr : SyncEvent → String
  | SyncEvent.completed _ _ err => err
  | SyncEvent.timeoutExpired _ se => match se with | some s => s | none => ""
  | SyncEvent.raised _ => ""

/-- The output text the asynchronous runner's `communicate` call
delivered, per event: only a completed `communicate` assigns the local
buffers. -/
def AsyncEvent.capturedStdout : AsyncEvent → String
  | AsyncEvent.exited _ outB _ => outB
  | _ => ""

/-- The error-stream counterpart of `AsyncEvent.capturedStdout`. -/
def AsyncEvent.capturedStderr : AsyncEvent → String
  | AsyncEvent.exited _ _ errB => errB
  | _ => ""

/-- Whether `needle` occurs contiguously in `hay` (as lists of
characters). -/
def charsContain (needle : List Char) : List Char → Bool
  | [] => needle.isEmpty
  | c :: rest => needle.isPrefixOf (c :: rest) || charsContain needle rest

/-- Whether the text `needle` occurs in the string `hay` (Python's
`needle in hay`). -/
def containsText (hay needle : String) : Bool :=
  charsContain needle.data hay.data

/-- One assignment
`self.current_state["results"][context_id] = result.model_dump()` in
`run_single_step` of `workflow_manager.py`: Python dict assignment —
replace the entry when the key is already present, otherwise append it,
preserving insertion order. -/
def recordOutcome (m : List (String × ExecutionResult)) (k : String)
    (v : ExecutionResult) : List (String × ExecutionResult) :=
  if k ∈ m.map Prod.fst then
    m.map (fun p => if p.1 = k then (k, v) else p)
  else m ++ [(k, v)]

/-- The `results` dictionary of `current_state` after the steps of a
workflow have recorded their outcomes in the given completion order,
starting from the dictionary `acc` (empty for a fresh
`WorkflowManager`). -/
def recordAll (acc : List (String × ExecutionResult))
    (completions : List (String × ExecutionResult)) :
    List (String × ExecutionResult) :=
  completions.foldl (fun m c => recordOutcome m c.1 c.2) acc

/-- The final status computation of `run_workflow`: after
`asyncio.gather` returns the per-request results,
`COMPLETED_WITH_ERRORS` when `any(r.status != "SUCCESS" for r in results)`
and `SUCCESS` otherwise. -/
def workflowFinalStatus (results : List ExecutionResult) : String :=
  if results.any (fun r => decide (r.status ≠ Status.SUCCESS)) then
    "COMPLETED_WITH_ERRORS"
  else "SUCCESS"

/-- The phase of one `run_single_step` invocation with respect to the
concurrency gate `self.task_semaphore`: not yet holding a permit
(submitted or suspended in the semaphore's acquire), holding a permit
(the `async with` body, i.e. the `execute_async` call is in flight), or
finished (permit released). -/
inductive TaskPhase where
  | pending
  | running
  | done
  deriving DecidableEq, Repr

/-- The orchestration state of one `run_workflow` invocation: the
counter of `self.task_semaphore` (initially `max_concurrent_tasks`) and
the phase of each dispatched `run_single_step` task. -/
structure WorkflowSched where
  permits : Nat
  tasks : List TaskPhase
  deriving DecidableEq, Repr

/-- The number of `run_single_step` invocations currently holding a
permit, i.e. of simultaneously in-flight `execute_async` calls. -/
def countRunning : List TaskPhase → Nat
  | [] => 0
  | TaskPhase.running :: rest => countRunning rest + 1
  | TaskPhase.pending :: rest => countRunning rest
  | TaskPhase.done :: rest => countRunning rest

/-- One step of the cooperative scheduler driving
`async with self.task_semaphore`: `acquire` admits a pending task only
when the semaphore counter is positive and decrements it; `release`
completes a running task and increments the counter.  No other
transition touches the counter. -/
inductive SchedStep : WorkflowSched → WorkflowSched → Prop where
  | acquire (s : WorkflowSched) (i : Nat)
      (h : s.tasks.get? i = some TaskPhase.pending) (hp : 0 < s.permits) :
      SchedStep s ⟨s.permits - 1, s.tasks.set i TaskPhase.running⟩
  | release (s : WorkflowSched) (i : Nat)
      (h : s.tasks.get? i = some TaskPhase.running) :
      SchedStep s ⟨s.permits + 1, s.tasks.set i TaskPhase.done⟩

/-- The initial orchestration state of `run_workflow`: the semaphore
holds `maxC` permits (`asyncio.Semaphore(self.max_concurrent_tasks)`)
and all `n` dispatched tasks await admission. -/
def initSched (maxC n : Nat) : WorkflowSched :=
  ⟨maxC, List.replicate n TaskPhase.pending⟩

/-- The in-flight count of an orchestration state. -/
def runningCount (s : WorkflowSched) : Nat :=
  countRunning s.tasks

/-- The orchestration states one `run_workflow` invocation can pass
through. -/
def ReachableSched (maxC n : Nat) (s : WorkflowSched) : Prop :=
  Relation.ReflTransGen SchedStep (initSched maxC n) s

/-- A successful sample outcome. -/
def resOk : ExecutionResult :=
  ⟨Status.SUCCESS, 0, 1, "", "", none⟩

/-- A failed sample outcome. -/
def resFail : ExecutionResult :=
  ⟨Status.FAILURE, 1, 1, "", "", some "Command exited with non-zero code 1."⟩

/-- A sample request with context identifier `ctx-a`. -/
def reqA : ExecutionCommand :=
  ⟨"a", [], none, 5, [], "ctx-a"⟩

/-- A sample request with context identifier `ctx-b`. -/
def reqB : ExecutionCommand :=
  ⟨"b", [], none, 5, [], "ctx-b"⟩

/-- The outcome the synchronous runner resolves for `echoReq` when the
call times out with the partial text `" x "` attached. -/
def rT : ExecutionResult :=
  ⟨Status.TIMEOUT, -1, 1, " x ", "",
    some "Command timed out after 5 seconds. Process was terminated."⟩

/-- The outcome the asynchronous runner resolves for `echoReq` when the
combined read-and-wait times out. -/
def rTO : ExecutionResult :=
  ⟨Status.TIMEOUT, -1, 1, "", "", some "Command timed out after 5 seconds."⟩

theorem countRunning_cons (x : TaskPhase) (xs : List TaskPhase) :
    countRunning (x :: xs) =
      countRunning xs + (if x = TaskPhase.running then 1 else 0) := by
  cases x <;> simp [countRunning]

theorem countRunning_replicate (n : Nat) :
    countRunning (List.replicate n TaskPhase.pending) = 0 := by
  induction n with
  | zero => rfl
  | succ m ih => simp [List.replicate, countRunning, ih]

theorem countRunning_set (l : List TaskPhase) (i : Nat) (a b : TaskPhase)
    (h : l.get? i = some a) :
    countRunning (l.set i b) + (if a = TaskPhase.running then 1 else 0) =
      countRunning l + (if b = TaskPhase.running then 1 else 0) := by
  induction l generalizing i with
  | nil => cases h
  | cons x xs ih =>
      cases i with
      | zero =>
          simp only [List.get?] at h
          injection h with h
          subst h
          simp [List.set, countRunning_cons]
          omega
      | succ n =>
          simp only [List.get?] at h
          have hx := ih n h
          simp [List.set, countRunning_cons]
          omega

theorem schedStep_invariant {maxC : Nat} {s s2 : WorkflowSched}
    (hstep : SchedStep s s2)
    (hinv : s.permits + runningCount s = maxC) :
    s2.permits + runningCount s2 = maxC := by
  cases hstep with
  | acquire i h hp =>
      have hc := countRunning_set s.tasks i TaskPhase.pending TaskPhase.running h
      simp only [runningCount] at hinv ⊢
      simp at hc
      omega
  | release i h =>
      have hc := countRunning_set s.tasks i TaskPhase.running TaskPhase.done h
      simp only [runningCount] at hinv ⊢
      simp at hc
      omega

theorem reachable_invariant {maxC n : Nat} {s : WorkflowSched}
    (h : ReachableSched maxC n s) :
    s.permits + runningCount s = maxC := by
  induction h with
  | refl => simp [initSched, runningCount, countRunning_replicate]
  | tail _ hstep ih => exact schedStep_invariant hstep ih

theorem model_validate_ok_inv {st : Status} {ec : Int} {d : Rat}
    {so se : String} {em : Option String} {r : ExecutionResult}
    (h : ExecutionResult.model_validate st ec d so se em = Except.ok r) :
    r = ⟨st, ec, d, so, se, em⟩ := by
  unfold ExecutionResult.model_validate at h
  split at h
  · exact (Except.ok.inj h).symm
  · cases h

theorem strip_ite (sb : String) :
    (if sb ≠ "" then strip sb else "") = strip sb := by
  by_cases hb : sb = ""
  · subst hb; rfl
  · simp [hb]

theorem recordOutcome_not_mem (acc : List (String × ExecutionResult))
    (k : String) (v : ExecutionResult) (h : k ∉ acc.map Prod.fst) :
    recordOutcome acc k v = acc ++ [(k, v)] := by
  simp [recordOutcome, h]

theorem recordAll_disjoint (completions : List (String × ExecutionResult)) :
    ∀ acc : List (String × ExecutionResult),
      (completions.map Prod.fst).Nodup →
      (∀ p ∈ completions, p.1 ∉ acc.map Prod.fst) →
      recordAll acc completions = acc ++ completions := by
  induction completions with
  | nil => intro acc _ _; simp [recordAll]
  | cons hd tl ih =>
      intro acc hnd hdisj
      obtain ⟨k, v⟩ := hd
      have hk : k ∉ tl.map Prod.fst := (List.nodup_cons.mp (by simpa using hnd)).1
      have htl : (tl.map Prod.fst).Nodup := (List.nodup_cons.mp (by simpa using hnd)).2
      have hrec : recordOutcome acc k v = acc ++ [(k, v)] :=
        recordOutcome_not_mem acc k v (hdisj (k, v) (by simp))
      have hdisj2 : ∀ p ∈ tl, p.1 ∉ (acc ++ [(k, v)]).map Prod.fst := by
        intro p hp
        simp only [List.map_append, List.mem_append]
        rintro (hmem | hmem)
        · exact hdisj p (List.mem_cons_of_mem _ hp) hmem
        · simp only [List.map_cons, List.map_nil, List.mem_singleton] at hmem
          exact hk (by rw [← hmem]; exact List.mem_map_of_mem Prod.fst hp)
      calc recordAll acc ((k, v) :: tl)
          = recordAll (acc ++ [(k, v)]) tl := by
            simp [recordAll, hrec]
        _ = (acc ++ [(k, v)]) ++ tl := ih (acc ++ [(k, v)]) htl hdisj2
        _ = acc ++ (k, v) :: tl := by simp

/-- C1: the claim states that on a normal exit within the timeout
`execute_async` resolves `SUCCESS` with exit code 0 for a zero exit and
`FAILURE` with a message naming the code for a non-zero exit.  The code
does neither: `result_kwargs["status"]` is initialised to `"FAILURE"`,
and the final status check in the `finally` block runs only when the
status is *not* already `"TIMEOUT"` or `"FAILURE"`, so it never fires; a
normal exit therefore keeps status `FAILURE` (with the exit code
recorded but `error_message` left `None`) even for exit code 0. -/
theorem async_normal_exit_status_bug :
    execute_async echoReq (AsyncEvent.exited 0 "hello" "") 1 =
      Except.ok ⟨Status.FAILURE, 0, 1, "hello", "", none⟩ ∧
    execute_async echoReq (AsyncEvent.exited 7 "oops" "") 1 =
      Except.ok ⟨Status.FAILURE, 7, 1, "oops", "", none⟩ :=
  ⟨rfl, rfl⟩

/-- C2: for every modelled operating-system event and every non-negative
measured duration, both runners return an `ExecutionResult` outcome
(`Except.ok`); no exception crosses the runner boundary. -/
theorem runners_never_propagate (command_data : ExecutionCommand) (d : Rat)
    (hd : 0 ≤ d) :
    (∀ ev : SyncEvent, ∃ r, execute_sync command_data ev d = Except.ok r) ∧
    (∀ ev : AsyncEvent, ∃ r, execute_async command_data ev d = Except.ok r) := by
  have hnum : 0 ≤ d.num := Rat.num_nonneg.mpr hd
  constructor
  · intro ev
    cases ev with
    | completed rc out err =>
        by_cases h0 : rc = 0 <;>
          simp [execute_sync, ExecutionResult.model_validate, hnum, h0]
    | timeoutExpired so se =>
        simp [execute_sync, ExecutionResult.model_validate, hnum]
    | raised e =>
        by_cases hf : e.isFileNotFound <;>
          simp [execute_sync, ExecutionResult.model_validate, hnum, hf]
  · intro ev
    cases ev with
    | spawnFail e =>
        simp [execute_async, asyncFinally, ExecutionResult.model_validate, hnum]
    | exited rc outB errB =>
        simp [execute_async, asyncFinally, ExecutionResult.model_validate,
          initialKwargs, hnum]
    | timedOut =>
        simp [execute_async, asyncFinally, ExecutionResult.model_validate, hnum]
    | commFail e =>
        by_cases hf : e.isFileNotFound <;>
          simp [execute_async, asyncFinally, ExecutionResult.model_validate,
            hnum, hf]

/-- Witness for C2 at concrete inputs. -/
theorem runners_never_propagate_witness :
    (∃ r, execute_sync echoReq (SyncEvent.completed 0 "hello" "") 1 =
        Except.ok r) ∧
    (∃ r, execute_async echoReq AsyncEvent.timedOut 1 = Except.ok r) :=
  ⟨(runners_never_propagate echoReq 1 (by norm_num)).1
      (SyncEvent.completed 0 "hello" ""),
   (runners_never_propagate echoReq 1 (by norm_num)).2 AsyncEvent.timedOut⟩

/-- C3: the claim states that for outcomes of either runner
`error_message` is present exactly when the status is not `SUCCESS`.
The asynchronous runner violates it: a normal non-zero exit resolves
status `FAILURE` with `error_message = None`, because the `finally`
block's message assignment is unreachable (the status is already
`FAILURE`, its initial value). -/
theorem async_message_iff_bug :
    execute_async echoReq (AsyncEvent.exited 3 "out" "") 2 =
      Except.ok ⟨Status.FAILURE, 3, 2, "out", "", none⟩ ∧
    (Status.FAILURE ≠ Status.SUCCESS ∧ (none : Option String) = none) :=
  ⟨rfl, by decide, rfl⟩

/-- C4: in every orchestration state one `run_workflow` invocation can
reach, the number of simultaneously in-flight `execute_async`
invocations never exceeds the semaphore's initial permit count
`max_concurrent_tasks`: admission decrements a positive counter and
completion increments it. -/
theorem bounded_concurrency (maxC n : Nat) (s : WorkflowSched)
    (h : ReachableSched maxC n s) : runningCount s ≤ maxC := by
  have hinv := reachable_invariant h
  omega

/-- Witness for C4 at a concrete reachable state. -/
theorem bounded_concurrency_witness :
    runningCount (initSched 2 5) ≤ 2 :=
  bounded_concurrency 2 5 (initSched 2 5) Relation.ReflTransGen.refl

/-- C5: for a batch whose context identifiers are pairwise distinct, the
final `results` dictionary holds exactly one entry per submitted
request, keyed by its context identifier, whatever order the requests
complete and record in. -/
theorem outcome_mapping_one_entry_per_request (cmds : List ExecutionCommand)
    (completions : List (String × ExecutionResult))
    (hnodup : (cmds.map ExecutionCommand.context_id).Nodup)
    (hperm : (completions.map Prod.fst).Perm
      (cmds.map ExecutionCommand.context_id)) :
    ((recordAll [] completions).map Prod.fst).Perm
        (cmds.map ExecutionCommand.context_id) ∧
    ((recordAll [] completions).map Prod.fst).Nodup := by
  have hcn : (completions.map Prod.fst).Nodup := hperm.nodup_iff.mpr hnodup
  rw [recordAll_disjoint completions [] hcn (by simp)]
  simpa using ⟨hperm, hcn⟩

/-- Witness for C5: two requests completing in reverse submission
order. -/
theorem outcome_mapping_witness :
    ((recordAll [] [("ctx-b", resOk), ("ctx-a", resOk)]).map Prod.fst).Perm
        ([reqA, reqB].map ExecutionCommand.context_id) ∧
    ((recordAll [] [("ctx-b", resOk), ("ctx-a", resOk)]).map Prod.fst).Nodup :=
  outcome_mapping_one_entry_per_request [reqA, reqB]
    [("ctx-b", resOk), ("ctx-a", resOk)] (by decide) (by decide)

/-- C6: after `asyncio.gather` has resolved every request without an
orchestration-level fault, `run_workflow` sets the final status to
`COMPLETED_WITH_ERRORS` when some recorded outcome is not `SUCCESS`,
and to `SUCCESS` when all are. -/
theorem final_status_aggregation (results : List ExecutionResult) :
    ((∃ r ∈ results, r.status ≠ Status.SUCCESS) →
        workflowFinalStatus results = "COMPLETED_WITH_ERRORS") ∧
    ((∀ r ∈ results, r.status = Status.SUCCESS) →
        workflowFinalStatus results = "SUCCESS") := by
  constructor
  · rintro ⟨r, hr, hs⟩
    have hany : results.any (fun r => decide (r.status ≠ Status.SUCCESS)) = true :=
      List.any_eq_true.mpr ⟨r, hr, by simpa using hs⟩
    simp only [workflowFinalStatus, hany, if_true]
  · intro h
    have hany : results.any (fun r => decide (r.status ≠ Status.SUCCESS)) = false := by
      rw [List.any_eq_false]
      intro r hr
      simpa using h r hr
    simp only [workflowFinalStatus, hany, Bool.false_eq_true, if_false]

/-- Witness for C6: one failing batch and one all-successful batch. -/
theorem final_status_aggregation_witness :
    workflowFinalStatus [resFail] = "COMPLETED_WITH_ERRORS" ∧
    workflowFinalStatus [resOk] = "SUCCESS" :=
  ⟨(final_status_aggregation [resFail]).1 (by decide),
   (final_status_aggregation [resOk]).2 (by decide)⟩

/-- C7 counterexample: the claim states that constructing an
`ExecutionCommand` with an empty `command` fails with a construction
error; pydantic validation puts no constraint on `command`, so
construction with the empty string succeeds. -/
theorem empty_command_accepted :
    ExecutionCommand.model_validate "" [] none 5 [] "ctx-0" =
      Except.ok ⟨"", [], none, 5, [], "ctx-0"⟩ :=
  rfl

/-- C7 amended: constructing an `ExecutionCommand` with `timeout <= 0`
fails immediately with a construction error, before any process is
spawned; an empty `command` is not validated and construction succeeds
for any positive timeout. -/
theorem timeout_validated_at_construction (command : String)
    (args : List String) (cwd : Option String) (timeout : Rat)
    (env_vars : List (String × String)) (context_id : String) :
    (timeout ≤ 0 →
      ExecutionCommand.model_validate command args cwd timeout env_vars
          context_id =
        Except.error "Input should be greater than 0") ∧
    (0 < timeout →
      ExecutionCommand.model_validate command args cwd timeout env_vars
          context_id =
        Except.ok ⟨command, args, cwd, timeout, env_vars, context_id⟩) := by
  constructor
  · intro h
    have hn : ¬ 0 < timeout.num := by
      simpa using not_lt.mpr (Rat.num_nonpos.mpr h)
    simp [ExecutionCommand.model_validate, hn]
  · intro h
    have hn : 0 < timeout.num := Rat.num_pos.mpr h
    simp [ExecutionCommand.model_validate, hn]

/-- Witness for the amended C7 at concrete inputs: a non-positive
timeout is rejected, an empty command with positive timeout is
accepted. -/
theorem timeout_validated_witness :
    ExecutionCommand.model_validate "echo" [] none (-1) [] "ctx-0" =
      Except.error "Input should be greater than 0" ∧
    ExecutionCommand.model_validate "" [] none 3 [] "ctx-1" =
      Except.ok ⟨"", [], none, 3, [], "ctx-1"⟩ :=
  ⟨(timeout_validated_at_construction "echo" [] none (-1) [] "ctx-0").1
      (by norm_num),
   (timeout_validated_at_construction "" [] none 3 [] "ctx-1").2
      (by norm_num)⟩

/-- C8: the claim states that both runners answer a missing executable
with a message that contains the text "not found".  The synchronous
runner does (its `except FileNotFoundError` handler produces
`"Executable not found: ..."`), but the asynchronous runner does not:
`create_subprocess_exec` raises inside the outer `try`, whose only
handler is the generic `except Exception` producing
`"Failed to start process: FileNotFoundError: ..."` — the inner
`except FileNotFoundError` handler around `communicate` can never catch
a spawn failure.  Status and exit code (-1) do match the claim. -/
theorem async_spawn_message_lacks_not_found :
    execute_async missingReq
        (AsyncEvent.spawnFail ⟨"FileNotFoundError", missingMsg⟩) 1 =
      Except.ok ⟨Status.FAILURE, -1, 1, "", "",
        some ("Failed to start process: FileNotFoundError: " ++ missingMsg)⟩ ∧
    containsText ("Failed to start process: FileNotFoundError: " ++ missingMsg)
        "not found" = false ∧
    execute_sync missingReq
        (SyncEvent.raised ⟨"FileNotFoundError", missingMsg⟩) 1 =
      Except.ok ⟨Status.FAILURE, -1, 1, "", "",
        some "Executable not found: /no/such/binary. Check PATH or cwd."⟩ ∧
    containsText "Executable not found: /no/such/binary. Check PATH or cwd."
        "not found" = true :=
  ⟨rfl, by decide, rfl, by decide⟩

/-- C9 counterexample: the claim states that in every branch the
outcome's `stdout` equals the captured text trimmed of surrounding
whitespace; the synchronous runner's timeout branch attaches
`e.stdout.decode()` without `.strip()`, so partial output keeps its
trailing newline. -/
theorem sync_timeout_output_untrimmed :
    execute_sync echoReq (SyncEvent.timeoutExpired (some "hello\n") none) 1 =
      Except.ok ⟨Status.TIMEOUT, -1, 1, "hello\n", "",
        some "Command timed out after 5 seconds. Process was terminated."⟩ ∧
    strip "hello\n" ≠ "hello\n" :=
  ⟨rfl, by decide⟩

/-- C9 amended: the asynchronous runner's outcomes carry the captured
output trimmed in every branch, and so do the synchronous runner's in
every branch except its timeout branch, where the captured bytes are
attached decoded but untrimmed (empty when none were attached). -/
theorem trimmed_output_amended (command_data : ExecutionCommand) (d : Rat) :
    (∀ (ev : AsyncEvent) (r : ExecutionResult),
        execute_async command_data ev d = Except.ok r →
        r.stdout = strip ev.capturedStdout ∧
        r.stderr = strip ev.capturedStderr) ∧
    (∀ (ev : SyncEvent) (r : ExecutionResult),
        execute_sync command_data ev d = Except.ok r →
        (∀ so se, ev ≠ SyncEvent.timeoutExpired so se) →
        r.stdout = strip ev.capturedStdout ∧
        r.stderr = strip ev.capturedStderr) ∧
    (∀ (so se : Option String) (r : ExecutionResult),
        execute_sync command_data (SyncEvent.timeoutExpired so se) d =
          Except.ok r →
        r.stdout = (match so with | some s => s | none => "") ∧
        r.stderr = (match se with | some s => s | none => "")) := by
  refine ⟨?_, ?_, ?_⟩
  · intro ev r h
    cases ev with
    | spawnFail e =>
        have hr := model_validate_ok_inv
          (by simpa [execute_async, asyncFinally] using h)
        subst hr
        exact ⟨rfl, rfl⟩
    | exited rc outB errB =>
        have hr := model_validate_ok_inv
          (by simpa [execute_async, asyncFinally, initialKwargs] using h)
        subst hr
        constructor
        · simpa [AsyncEvent.capturedStdout] using strip_ite outB
        · simpa [AsyncEvent.capturedStderr] using strip_ite errB
    | timedOut =>
        have hr := model_validate_ok_inv
          (by simpa [execute_async, asyncFinally] using h)
        subst hr
        exact ⟨rfl, rfl⟩
    | commFail e =>
        by_cases hf : e.isFileNotFound
        · have hr := model_validate_ok_inv
            (by simpa [execute_async, asyncFinally, hf] using h)
          subst hr
          exact ⟨rfl, rfl⟩
        · have hr := model_validate_ok_inv
            (by simpa [execute_async, asyncFinally, hf] using h)
          subst hr
          exact ⟨rfl, rfl⟩
  · intro ev r h hne
    cases ev with
    | completed rc out err =>
        by_cases h0 : rc = 0
        · have hr := model_validate_ok_inv
            (by simpa [execute_sync, h0] using h)
          subst hr
          exact ⟨rfl, rfl⟩
        · have hr := model_validate_ok_inv
            (by simpa [execute_sync, h0] using h)
          subst hr
          exact ⟨rfl, rfl⟩
    | timeoutExpired so se => exact absurd rfl (hne so se)
    | raised e =>
        by_cases hf : e.isFileNotFound
        · have hr := model_validate_ok_inv
            (by simpa [execute_sync, hf] using h)
          subst hr
          exact ⟨rfl, rfl⟩
        · have hr := model_validate_ok_inv
            (by simpa [execute_sync, hf] using h)
          subst hr
          exact ⟨rfl, rfl⟩
  · intro so se r h
    have hr := model_validate_ok_inv (by simpa [execute_sync] using h)
    subst hr
    exact ⟨rfl, rfl⟩

/-- Witness for the amended C9: a synchronous timeout with the partial
text `" x "` attached keeps it untrimmed. -/
theorem trimmed_output_amended_witness :
    rT.stdout = " x " ∧ rT.stderr = "" :=
  (trimmed_output_amended echoReq 1).2.2 (some " x ") none rT rfl

/-- C10: every `execute_async` outcome with status `TIMEOUT` has empty
`stdout` and `stderr`: the local output buffers are assigned only by a
completed `communicate` call, which the timeout interrupted. -/
theorem async_timeout_empty_output (command_data : ExecutionCommand)
    (ev : AsyncEvent) (d : Rat) (r : ExecutionResult)
    (h : execute_async command_data ev d = Except.ok r)
    (ht : r.status = Status.TIMEOUT) :
    r.stdout = "" ∧ r.stderr = "" := by
  cases ev with
  | spawnFail e =>
      have hr := model_validate_ok_inv
        (by simpa [execute_async, asyncFinally] using h)
      subst hr
      simp at ht
  | exited rc outB errB =>
      have hr := model_validate_ok_inv
        (by simpa [execute_async, asyncFinally, initialKwargs] using h)
      subst hr
      simp at ht
  | timedOut =>
      have hr := model_validate_ok_inv
        (by simpa [execute_async, asyncFinally] using h)
      subst hr
      exact ⟨rfl, rfl⟩
  | commFail e =>
      by_cases hf : e.isFileNotFound
      · have hr := model_validate_ok_inv
          (by simpa [execute_async, asyncFinally, hf] using h)
        subst hr
        simp at ht
      · have hr := model_validate_ok_inv
          (by simpa [execute_async, asyncFinally, hf] using h)
        subst hr
        simp at ht

/-- Witness for C10 at the concrete timeout event. -/
theorem async_timeout_empty_output_witness :
    rTO.stdout = "" ∧ rTO.stderr = "" :=
  async_timeout_empty_output echoReq AsyncEvent.timedOut 1 rTO rfl rfl
